import Mathlib

/-!
Shallow embedding of the actionstack dispatch/execution-tracking core.

Source files embedded:
* `src/projects/actionstack/src/lib/actions.ts` — the `Action` completion
  token, `createAction`, `bindActionCreator`, `bindActionCreators`.
* `src/unnamed/part_002` — the `ExecutionStack` operation ledger.

JavaScript runtime values that flow through these functions (payloads,
thrown errors, the argument of `bindActionCreators`) are modelled by small
inductive types with an explicit `typeof` and member-access semantics, so
that corner cases of the dynamic language (null-ness, `typeof` tags,
property access on `null`) are represented faithfully.
-/

namespace Actionstack

/-- A JavaScript runtime value as it appears in payload / thrown-error
position. Objects are finite association lists of fields; this model has
no function values because none are stored in payloads by the embedded
code paths. -/
inductive JSValue where
  | null
  | undef
  | num (n : Int)
  | str (s : String)
  | boolean (b : Bool)
  | obj (fields : List (String × JSValue))

/-- Look up an own property by key in an object's field list (first match,
like a JS object's unique keys). -/
def lookupField (fields : List (String × JSValue)) (key : String) : Option JSValue :=
  match fields with
  | [] => none
  | (k, v) :: rest => if k == key then some v else lookupField rest key

/-- Member access `v.k` with JavaScript semantics: reading a property of
`null`/`undefined` throws a `TypeError`; reading a missing property of any
other value yields `undefined`. The thrown error is returned in the
`Except.error` component. -/
def jsMember (v : JSValue) (k : String) : Except JSValue JSValue :=
  match v with
  | JSValue.null =>
      Except.error (JSValue.str ("TypeError: Cannot read properties of null (reading " ++ k ++ ")"))
  | JSValue.undef =>
      Except.error (JSValue.str ("TypeError: Cannot read properties of undefined (reading " ++ k ++ ")"))
  | JSValue.obj fields =>
      Except.ok ((lookupField fields k).getD JSValue.undef)
  | _ => Except.ok JSValue.undef

/-- String interpolation of a JS value, as a template literal performs it. -/
def jsToString : JSValue → String
  | JSValue.null => "null"
  | JSValue.undef => "undefined"
  | JSValue.num n => toString n
  | JSValue.str s => s
  | JSValue.boolean b => cond b "true" "false"
  | JSValue.obj _ => "[object Object]"

/-- The `typeOrThunk` constructor argument of `Action` / `createAction`:
either a string action type or a thunk function. A thunk is represented by
the outcome of running its body (it either completes or throws a JS value),
which is all the embedded code observes of it. -/
inductive TypeOrThunk where
  | str (s : String)
  | thunk (body : Except JSValue Unit)

/-- True exactly on the `Function` side of `typeOrThunk`
(`typeOrThunk instanceof Function` in the source). -/
def TypeOrThunk.isFunction : TypeOrThunk → Bool
  | TypeOrThunk.str _ => false
  | TypeOrThunk.thunk _ => true

/-- The `Action` completion token (actions.ts lines 12-64): an action
descriptor (`type`, `payload`, `error`, `meta`, `source`) plus the
manually-settled completion state `_isResolved` / `_isRejected`. The
underlying promise is represented solely by these two flags, which is all
that `resolve` / `reject` / `hasExecuted` consult. -/
structure Action where
  type : Option String := none
  payload : JSValue := JSValue.undef
  error : JSValue := JSValue.undef
  meta : JSValue := JSValue.undef
  source : JSValue := JSValue.undef
  isResolved : Bool := false
  isRejected : Bool := false

/-- The `Action` constructor (actions.ts lines 22-32): `type` is assigned
only when `typeOrThunk` is not a `Function`; both settlement flags start
`false`. -/
def Action.construct (typeOrThunk : TypeOrThunk) (payload error meta source : JSValue) : Action :=
  { type := match typeOrThunk with
      | TypeOrThunk.str s => some s
      | TypeOrThunk.thunk _ => none
    payload := payload
    error := error
    meta := meta
    source := source
    isResolved := false
    isRejected := false }

/-- One manual settlement call on a token: `resolve()` or `reject(reason)`. -/
inductive SettleCall where
  | resolve
  | reject

/-- `Action.resolve` / `Action.reject` (actions.ts lines 35-48): each sets
its flag only when neither flag is set yet, otherwise it leaves the token
unchanged. -/
def Action.applySettle (a : Action) : SettleCall → Action
  | SettleCall.resolve =>
      if !a.isResolved && !a.isRejected then { a with isResolved := true } else a
  | SettleCall.reject =>
      if !a.isResolved && !a.isRejected then { a with isRejected := true } else a

/-- A sequence of `resolve`/`reject` calls performed on a token, in order. -/
def Action.runSettles (calls : List SettleCall) (a : Action) : Action :=
  calls.foldl Action.applySettle a

/-- `Action.hasExecuted` (actions.ts lines 56-58). -/
def Action.hasExecuted (a : Action) : Bool :=
  a.isResolved || a.isRejected

/-- `Action.isAsync` (actions.ts lines 61-63): `!(typeof this.type === 'string')`;
`type` is a string exactly when it was assigned from a string `typeOrThunk`. -/
def Action.isAsync (a : Action) : Bool :=
  match a.type with
  | some _ => false
  | none => true

/-- The `meta`/`error` copying step of `createAction` (actions.ts lines
112-115): when the payload is a non-null object, its `meta` / `error` own
properties (when present, the `'meta' in payload` tests) are copied onto
the token; any other payload leaves the token unchanged. -/
def assignMetaError (a : Action) (payload : JSValue) : Action :=
  match payload with
  | JSValue.obj fields =>
      let withMeta :=
        match lookupField fields "meta" with
        | some m => { a with meta := m }
        | none => a
      match lookupField fields "error" with
      | some e => { withMeta with error := e }
      | none => withMeta
  | _ => a

/-- The outcome of calling the action creator produced by `createAction`
with a string `typeOrThunk` (actions.ts lines 103-118): the produced
`Action` together with the list of `console.warn` diagnostics emitted
during creation.
The payload is the `payloadCreator` result when one was supplied, else the
first call argument (`args[0]`, `undefined` when absent). -/
def createActionPlain (typeStr : String) (payloadCreator : Option (List JSValue → JSValue))
    (args : List JSValue) : Action × List String :=
  let payload : JSValue :=
    match payloadCreator with
    | some pc => pc args
    | none => args.headD JSValue.undef
  let warnings : List String :=
    match payloadCreator, payload with
    | some _, JSValue.undef =>
        ["payloadCreator did not return an object. Did you forget to initialize an action with params?"]
    | some _, JSValue.null =>
        ["payloadCreator did not return an object. Did you forget to initialize an action with params?"]
    | _, _ => []
  let a0 := Action.construct (TypeOrThunk.str typeStr) payload JSValue.undef JSValue.undef JSValue.undef
  (assignMetaError a0 payload, warnings)

/-- The `actionCreator.match` predicate attached by `createAction`
(actions.ts line 123) for a string-typed creator, applied to a candidate
that is an `Action` instance (`action instanceof Action` holds for every
value of the `Action` type of this model): it compares `action.type` with
the creator's type string. -/
def actionCreatorMatch (typeStr : String) (a : Action) : Bool :=
  match a.type with
  | some s => s == typeStr
  | none => false

/-- The async wrapper returned by `createAction` when `typeOrThunk` is a
function (actions.ts lines 96-102). `body` is the outcome of the try-block
(calling the thunk and awaiting its result): either completion or a thrown
JS value. On a throw the wrapper evaluates `error.message` — a member
access that itself throws a `TypeError` when the thrown value is
`null`/`undefined` — and logs the warning. The result is the wrapper
promise's outcome paired with the logged warnings on success. -/
def thunkRunner (body : Except JSValue Unit) : Except JSValue (List String) :=
  match body with
  | Except.ok _ => Except.ok []
  | Except.error e =>
      match jsMember e "message" with
      | Except.ok m => Except.ok ["Error in action: " ++ jsToString m]
      | Except.error t => Except.error t

/-- True exactly when the try-block outcome is a thrown `null` or
`undefined` — the only thrown values whose `.message` access itself
throws. -/
def throwsNullish : Except JSValue Unit → Bool
  | Except.error JSValue.null => true
  | Except.error JSValue.undef => true
  | _ => false

/-- What a JS action-creator call returns: an `Action` instance or any
other value (the `instanceof Action` test in `bindActionCreator`
distinguishes the two). -/
inductive CreatorOut where
  | act (a : Action)
  | other (v : JSValue)

/-- `bindActionCreator` (actions.ts lines 140-148), applied to its call
arguments: runs the creator; when the result is an `Action` instance it
dispatches it and returns it, otherwise it dispatches nothing and returns
`undefined`. The first component records the `dispatch` calls made, in
order; the second is the return value. -/
def bindActionCreator (actionCreator : List JSValue → CreatorOut) (args : List JSValue) :
    List Action × Option Action :=
  match actionCreator args with
  | CreatorOut.act a => ([a], some a)
  | CreatorOut.other _ => ([], none)

/-- The runtime argument of `bindActionCreators`: a JS value that may also
be a function. `F` stands for the function values (creators) stored in it;
they are opaque data here because the source only tests `typeof` on them
and passes them to `bindActionCreator`. -/
inductive BindArg (F : Type) where
  | null
  | undef
  | num (n : Int)
  | str (s : String)
  | boolean (b : Bool)
  | func (f : F)
  | obj (fields : List (String × BindArg F))

/-- JavaScript `typeof` for a `BindArg` (note `typeof null === "object"`). -/
def BindArg.typeof {F : Type} : BindArg F → String
  | BindArg.null => "object"
  | BindArg.undef => "undefined"
  | BindArg.num _ => "number"
  | BindArg.str _ => "string"
  | BindArg.boolean _ => "boolean"
  | BindArg.func _ => "function"
  | BindArg.obj _ => "object"

/-- The `=== null` test of actions.ts line 166. -/
def BindArg.isNull {F : Type} : BindArg F → Bool
  | BindArg.null => true
  | _ => false

/-- The spread `{...actionCreators}` of actions.ts line 171: copying the
own enumerable properties of any value into a fresh plain object (an
object keeps its fields; every other value, functions included, yields an
object with no own enumerable properties). -/
def BindArg.spreadCopy {F : Type} : BindArg F → BindArg F
  | BindArg.obj fields => BindArg.obj fields
  | _ => BindArg.obj []

/-- The `Object.keys` loop of actions.ts lines 177-185: the entries whose
values are functions, in key order (these are the ones bound with
`bindActionCreator`). -/
def BindArg.functionEntries {F : Type} : BindArg F → List (String × F)
  | BindArg.obj fields =>
      fields.filterMap (fun kv =>
        match kv.2 with
        | BindArg.func f => some (kv.1, f)
        | _ => none)
  | _ => []

/-- The possible non-undefined results of `bindActionCreators`: a single
bound creator (the line-173 branch) or a map of bound creators. An entry
`(k, f)` stands for key `k` bound to `bindActionCreator f dispatch`. -/
inductive BindRes (F : Type) where
  | single (f : F)
  | map (entries : List (String × F))

/-- `bindActionCreators` (actions.ts lines 165-188). The first component
records whether the `console.warn` diagnostic fired; the second is the
return value (`none` = `undefined`). The guard at line 166 returns
`undefined` for every argument whose `typeof` is not `"object"` — bare
functions included — and for `null`; the line-173 `typeof === "function"`
test runs after the spread, whose result is always a plain object, so its
branch is unreachable. -/
def bindActionCreators {F : Type} (actionCreators : BindArg F) : Bool × Option (BindRes F) :=
  if actionCreators.typeof != "object" || actionCreators.isNull then
    (true, none)
  else
    match BindArg.spreadCopy actionCreators with
    | BindArg.func f => (false, some (BindRes.single f))
    | sp => (false, some (BindRes.map sp.functionEntries))

namespace ExecutionStack

/-- The current value of the `ExecutionStack`'s backing
`BehaviorSubject<T[]>` is a list; `length` (part_002 lines 49-51) is the
length of that value. -/
def length {T : Type} (stack : List T) : Nat :=
  stack.length

/-- `push` (part_002 lines 57-59): `next([...value, item])`, appending at
the end. -/
def push {T : Type} (stack : List T) (item : T) : List T :=
  stack ++ [item]

/-- `peek` (part_002 lines 65-67): `value[value.length - 1]`, the last
element or `undefined`. -/
def peek {T : Type} (stack : List T) : Option T :=
  stack.getLast?

/-- `filter` (part_002 lines 74-78): computes `value.filter(predicate)`,
commits it as the new stack value, and returns it. First component: the
returned array; second: the new stack value. -/
def filter {T : Type} (predicate : T → Bool) (stack : List T) : List T × List T :=
  let filtered := stack.filter predicate
  (filtered, filtered)

/-- `pop` (part_002 lines 84-88): reads `peek()`, commits
`value.slice(0, -1)` (drop the last element; the empty list stays empty),
and returns the read value. First component: the returned value; second:
the new stack value. -/
def pop {T : Type} (stack : List T) : Option T × List T :=
  (peek stack, stack.dropLast)

/-- `clear` (part_002 lines 93-95): `next([])`. -/
def clear {T : Type} (_stack : List T) : List T :=
  []

/-- `toArray` (part_002 lines 101-103): a copy `[...value]` of the current
value. -/
def toArray {T : Type} (stack : List T) : List T :=
  stack

/-- One mutating operation on the stack, for reasoning about operation
sequences. -/
inductive StackOp (T : Type) where
  | push (x : T)
  | pop
  | filter (p : T → Bool)
  | clear

/-- The stack value after one operation. -/
def applyOp {T : Type} (stack : List T) : StackOp T → List T
  | StackOp.push x => push stack x
  | StackOp.pop => (pop stack).2
  | StackOp.filter p => (filter p stack).2
  | StackOp.clear => clear stack

/-- The stack value after a sequence of operations. -/
def runOps {T : Type} (ops : List (StackOp T)) (stack : List T) : List T :=
  ops.foldl applyOp stack

/-- Modelled from the spec: `waitFor` (imported from the repository's
`operators` module, whose source is not under src/) subscribes to the
`BehaviorSubject` and resolves with the first emitted value satisfying the
predicate; a `BehaviorSubject` emits its current value at subscription and
every subsequently committed value, so the stream observed by a waiter is
the trace of stack values from the call onward. `none` means the promise
never resolves. -/
def waitFor {T : Type} (trace : List (List T)) (predicate : List T → Bool) : Option (List T) :=
  trace.find? predicate

/-- `waitForEmpty` (part_002 lines 109-111):
`waitFor(this.stack, value => value.length === 0)` over the trace of stack
values observed from the call onward. -/
def waitForEmpty {T : Type} (trace : List (List T)) : Option (List T) :=
  waitFor trace (fun value => value.length == 0)

end ExecutionStack

/-- Modelled from the spec: one scheduler event of the Store's dispatch
pipeline (the Store source is not under src/). A dispatch chain's
interceptor/thunk side-effect steps do not touch the state value (§5:
state is "mutated only through the dispatch pipeline's single-threaded
critical sections", by the reducer alone); its single commit step applies
the reducer. -/
inductive DispatchEv (A : Type) where
  | sideEffect
  | commit (a : A)

/-- The actions committed by a schedule, in commit order. By §4.4/§5 the
commit order of a valid schedule is the dispatch-arrival order, under
either admission strategy. -/
def commitsOf {A : Type} : List (DispatchEv A) → List A
  | [] => []
  | DispatchEv.sideEffect :: rest => commitsOf rest
  | DispatchEv.commit a :: rest => a :: commitsOf rest

/-- Modelled from the spec: running the pipeline schedule. The Store's
state value is threaded through the events; side-effect steps leave it
unchanged, each commit replaces it with the reducer's result and that
result is the next committed state value observed. Returns the committed
state values in order. -/
def runPipeline {S A : Type} (reducer : S → A → S) : List (DispatchEv A) → S → List S
  | [], _ => []
  | DispatchEv.sideEffect :: rest, s => runPipeline reducer rest s
  | DispatchEv.commit a :: rest, s =>
      let s2 := reducer s a
      s2 :: runPipeline reducer rest s2

/-- The reducer folded over a list of actions from an initial state: the
sequence of successive fold results. -/
def committedStates {S A : Type} (reducer : S → A → S) : List A → S → List S
  | [], _ => []
  | a :: rest, s =>
      let s2 := reducer s a
      s2 :: committedStates reducer rest s2

/-!
Theorems settling the claims.
-/

/-- C3 counterexample: on the stack `[1, 2]` with the predicate `x == 1`,
`filter` returns `[1]` — the entries *matching* the predicate — not the
removed entries `[2]` the claim announces. -/
theorem c3_counterexample :
    (ExecutionStack.filter (fun x : Nat => x == 1) [1, 2]).1 ≠ [2] ∧
    (ExecutionStack.filter (fun x : Nat => x == 1) [1, 2]).1 = [1] := by
  exact ⟨by decide, rfl⟩

/-- C3 (amended): `filter(predicate)` commits as the new stack value
exactly the entries of the old value satisfying the predicate (in order),
and returns that retained list — not the removed entries. -/
theorem c3_filter_compacts_and_returns_kept {T : Type} (predicate : T → Bool) (stack : List T) :
    (∀ x, x ∈ (ExecutionStack.filter predicate stack).2 ↔ x ∈ stack ∧ predicate x = true) ∧
    (ExecutionStack.filter predicate stack).1 = (ExecutionStack.filter predicate stack).2 := by
  refine ⟨fun x => ?_, rfl⟩
  simp [ExecutionStack.filter, List.mem_filter]

/-- C4: `bindActionCreators` binds the callable entries of an object map
(skipping non-callables) and returns `undefined` with a diagnostic for
non-object arguments — but a bare function also takes the diagnostic
branch (`typeof` of a function is `"function"`, not `"object"`), so a
single creator is *not* wrapped, contradicting the claim and the
function's own documentation; evaluated here at the failing input
`BindArg.func 0` alongside the behaviors the claim states correctly. -/
theorem c4_bare_function_not_bound :
    bindActionCreators (BindArg.func (0 : Nat)) = (true, none) ∧
    bindActionCreators (BindArg.obj [("inc", BindArg.func (0 : Nat)), ("n", BindArg.num 3)]) =
      (false, some (BindRes.map [("inc", 0)])) ∧
    bindActionCreators (BindArg.num 5 : BindArg Nat) = (true, none) ∧
    bindActionCreators (BindArg.null : BindArg Nat) = (true, none) := by
  exact ⟨rfl, rfl, rfl, rfl⟩

/-- C6 counterexample: a thunk body that throws `null` defeats the
`catch` block — evaluating `error.message` throws a `TypeError`, which
propagates out of the wrapper, so the wrapper's promise rejects instead of
resolving. -/
theorem c6_counterexample :
    thunkRunner (Except.error JSValue.null) =
      Except.error (JSValue.str "TypeError: Cannot read properties of null (reading message)") :=
  rfl

/-- C6 (amended): the thunk wrapper catches a thrown error, logs a
warning and resolves normally (the promise never rejects) for every
thrown value except `null`/`undefined`, whose `.message` access inside
the catch block itself throws. -/
theorem c6_thunk_errors_swallowed (body : Except JSValue Unit)
    (h : throwsNullish body = false) :
    ∃ logs, thunkRunner body = Except.ok logs := by
  match body with
  | Except.ok _ => exact ⟨[], rfl⟩
  | Except.error e =>
    cases e with
    | null => simp [throwsNullish] at h
    | undef => simp [throwsNullish] at h
    | num n => exact ⟨_, rfl⟩
    | str s => exact ⟨_, rfl⟩
    | boolean b => exact ⟨_, rfl⟩
    | obj fields => exact ⟨_, rfl⟩

/-- C6 witness: a thunk throwing the string `"boom"` is swallowed and
logged. -/
theorem c6_witness :
    throwsNullish (Except.error (JSValue.str "boom")) = false ∧
    ∃ logs, thunkRunner (Except.error (JSValue.str "boom")) = Except.ok logs :=
  ⟨rfl, c6_thunk_errors_swallowed (Except.error (JSValue.str "boom")) rfl⟩

/-- C8: `pop` on the empty stack returns `undefined` and commits the
empty value again (a safe no-op), and after any sequence of
push/pop/filter/clear operations the reported `length` equals the number
of items in the `toArray` snapshot and is never negative. -/
theorem c8_pop_empty_noop_and_length_consistent :
    (ExecutionStack.pop ([] : List Nat) = (none, [])) ∧
    (∀ (ops : List (ExecutionStack.StackOp Nat)) (start : List Nat),
      ExecutionStack.length (ExecutionStack.runOps ops start) =
          (ExecutionStack.toArray (ExecutionStack.runOps ops start)).length ∧
        0 ≤ (ExecutionStack.length (ExecutionStack.runOps ops start) : Int)) := by
  refine ⟨rfl, fun ops start => ⟨rfl, ?_⟩⟩
  exact Int.ofNat_nonneg _

/-- C9: a token is `isAsync()` exactly when it was constructed from a
thunk (function) `typeOrThunk`; constructed from a string, its `type` is
that string and `isAsync()` is `false`. -/
theorem c9_isAsync_iff_thunk (t : TypeOrThunk) (pl e m s : JSValue) :
    ((Action.construct t pl e m s).isAsync = true ↔ t.isFunction = true) ∧
    (∀ ty, t = TypeOrThunk.str ty →
      (Action.construct t pl e m s).type = some ty ∧
        (Action.construct t pl e m s).isAsync = false) := by
  cases t <;> simp [Action.construct, Action.isAsync, TypeOrThunk.isFunction]

/-- C9 witness: the token constructed from the string type `"INC"` has
`type = "INC"` and is not async. -/
theorem c9_witness :
    (Action.construct (TypeOrThunk.str "INC") JSValue.undef JSValue.undef JSValue.undef
        JSValue.undef).type = some "INC" ∧
      (Action.construct (TypeOrThunk.str "INC") JSValue.undef JSValue.undef JSValue.undef
        JSValue.undef).isAsync = false :=
  (c9_isAsync_iff_thunk (TypeOrThunk.str "INC") JSValue.undef JSValue.undef JSValue.undef
    JSValue.undef).2 "INC" rfl

/-- C10: pushing `x` and then popping returns `x` and restores the
previous stack contents, and the `toArray` snapshot after a push is the
previous snapshot with `x` appended at the end. -/
theorem c10_push_pop_roundtrip {T : Type} (stack : List T) (x : T) :
    ExecutionStack.pop (ExecutionStack.push stack x) = (some x, stack) ∧
    ExecutionStack.toArray (ExecutionStack.push stack x) =
      ExecutionStack.toArray stack ++ [x] := by
  refine ⟨?_, rfl⟩
  simp [ExecutionStack.pop, ExecutionStack.push, ExecutionStack.peek, ExecutionStack.toArray]

/-- A settlement call on an already-settled token leaves it unchanged. -/
theorem Action.applySettle_settled (a : Action) (c : SettleCall)
    (h : Action.hasExecuted a = true) : Action.applySettle a c = a := by
  cases hr : a.isResolved <;> cases hj : a.isRejected <;>
    cases c <;> simp_all [Action.hasExecuted, Action.applySettle]

/-- Any sequence of settlement calls on an already-settled token leaves it
unchanged. -/
theorem Action.runSettles_settled (calls : List SettleCall) (a : Action)
    (h : Action.hasExecuted a = true) : Action.runSettles calls a = a := by
  induction calls generalizing a with
  | nil => rfl
  | cons c rest ih =>
      rw [show Action.runSettles (c :: rest) a =
            Action.runSettles rest (Action.applySettle a c) from rfl,
          Action.applySettle_settled a c h]
      exact ih a h

/-- The first settlement call on a freshly constructed token settles it. -/
theorem Action.hasExecuted_applySettle_construct (t : TypeOrThunk) (pl e m s : JSValue)
    (c : SettleCall) :
    Action.hasExecuted (Action.applySettle (Action.construct t pl e m s) c) = true := by
  cases c <;> rfl

/-- C1: the first `resolve`/`reject` call on a fresh token settles it
(resolve sets the resolved flag, reject the rejected flag); every later
call on a settled token is a no-op, so the settled state never changes;
and `hasExecuted()` is true exactly when at least one settlement call has
occurred. -/
theorem c1_settle_at_most_once :
    (∀ (a : Action) (c : SettleCall),
      Action.hasExecuted a = true → Action.applySettle a c = a) ∧
    (∀ (t : TypeOrThunk) (pl e m s : JSValue) (c : SettleCall) (calls : List SettleCall),
      Action.runSettles (c :: calls) (Action.construct t pl e m s) =
          Action.applySettle (Action.construct t pl e m s) c ∧
        Action.hasExecuted (Action.applySettle (Action.construct t pl e m s) c) = true) ∧
    (∀ (t : TypeOrThunk) (pl e m s : JSValue),
      (Action.applySettle (Action.construct t pl e m s) SettleCall.resolve).isResolved = true ∧
        (Action.applySettle (Action.construct t pl e m s) SettleCall.reject).isRejected = true) ∧
    (∀ (t : TypeOrThunk) (pl e m s : JSValue) (calls : List SettleCall),
      Action.hasExecuted (Action.runSettles calls (Action.construct t pl e m s)) = true ↔
        calls ≠ []) := by
  refine ⟨fun a c h => Action.applySettle_settled a c h, ?_, ?_, ?_⟩
  · intro t pl e m s c calls
    have hx := Action.hasExecuted_applySettle_construct t pl e m s c
    exact ⟨Action.runSettles_settled calls _ hx, hx⟩
  · intro t pl e m s
    exact ⟨rfl, rfl⟩
  · intro t pl e m s calls
    cases calls with
    | nil => simp [Action.runSettles, Action.hasExecuted, Action.construct]
    | cons c rest =>
        have hx := Action.hasExecuted_applySettle_construct t pl e m s c
        rw [show Action.runSettles (c :: rest) (Action.construct t pl e m s) =
              Action.runSettles rest (Action.applySettle (Action.construct t pl e m s) c)
            from rfl,
            Action.runSettles_settled rest _ hx]
        simp [hx]

/-- C1 witness: rejecting an already-resolved `"INC"` token is a no-op. -/
theorem c1_witness :
    Action.applySettle
        (Action.applySettle
          (Action.construct (TypeOrThunk.str "INC") JSValue.undef JSValue.undef JSValue.undef
            JSValue.undef)
          SettleCall.resolve)
        SettleCall.reject =
      Action.applySettle
        (Action.construct (TypeOrThunk.str "INC") JSValue.undef JSValue.undef JSValue.undef
          JSValue.undef)
        SettleCall.resolve :=
  c1_settle_at_most_once.1 _ SettleCall.reject rfl

/-- C2: for every schedule whose commit events occur in dispatch-arrival
order (which §4.4/§5 guarantee under both admission strategies), the
committed state values are exactly the reducer folded over the actions in
arrival order, however the side-effect events interleave. -/
theorem c2_commits_equal_reducer_fold {S A : Type} (reducer : S → A → S)
    (evs : List (DispatchEv A)) (s0 : S) (acts : List A)
    (h : commitsOf evs = acts) :
    runPipeline reducer evs s0 = committedStates reducer acts s0 := by
  subst h
  induction evs generalizing s0 with
  | nil => rfl
  | cons ev rest ih =>
      cases ev with
      | sideEffect => exact ih s0
      | commit a => simp [runPipeline, commitsOf, committedStates, ih]

/-- C2 witness: two commits interleaved with side effects produce the
running sums of the additive reducer. -/
theorem c2_witness :
    runPipeline (fun (s a : Nat) => s + a)
        [DispatchEv.sideEffect, DispatchEv.commit 2, DispatchEv.sideEffect, DispatchEv.commit 3]
        0 =
      committedStates (fun (s a : Nat) => s + a) [2, 3] 0 :=
  c2_commits_equal_reducer_fold (fun s a => s + a)
    [DispatchEv.sideEffect, DispatchEv.commit 2, DispatchEv.sideEffect, DispatchEv.commit 3]
    0 [2, 3] rfl

/-- The `meta`/`error` copying step never touches the token's `type`. -/
theorem assignMetaError_type (a : Action) (payload : JSValue) :
    (assignMetaError a payload).type = a.type := by
  cases payload with
  | obj fields =>
      cases h1 : lookupField fields "meta" <;> cases h2 : lookupField fields "error" <;>
        simp [assignMetaError, h1, h2]
  | null => rfl
  | undef => rfl
  | num n => rfl
  | str s => rfl
  | boolean b => rfl

/-- A token made by a string-typed creator carries that type string. -/
theorem createActionPlain_type (typeStr : String)
    (payloadCreator : Option (List JSValue → JSValue)) (args : List JSValue) :
    (createActionPlain typeStr payloadCreator args).1.type = some typeStr := by
  simp [createActionPlain, assignMetaError_type, Action.construct]

/-- C5: a bound creator whose invocation produces an `Action` dispatches
that token exactly once and returns it; and every token produced by a
string-typed creator satisfies that creator's `match` predicate. -/
theorem c5_bound_creator_dispatches_once :
    (∀ (actionCreator : List JSValue → CreatorOut) (args : List JSValue) (a : Action),
      actionCreator args = CreatorOut.act a →
        bindActionCreator actionCreator args = ([a], some a)) ∧
    (∀ (typeStr : String) (payloadCreator : Option (List JSValue → JSValue))
        (args : List JSValue),
      actionCreatorMatch typeStr (createActionPlain typeStr payloadCreator args).1 = true) := by
  constructor
  · intro actionCreator args a h
    simp [bindActionCreator, h]
  · intro typeStr payloadCreator args
    simp [actionCreatorMatch, createActionPlain_type typeStr payloadCreator args]

/-- C5 witness: binding a constant `"INC"` creator and invoking it
dispatches the produced token once and returns it. -/
theorem c5_witness :
    bindActionCreator
        (fun _ =>
          CreatorOut.act
            (Action.construct (TypeOrThunk.str "INC") JSValue.undef JSValue.undef JSValue.undef
              JSValue.undef))
        [] =
      ([Action.construct (TypeOrThunk.str "INC") JSValue.undef JSValue.undef JSValue.undef
          JSValue.undef],
        some
          (Action.construct (TypeOrThunk.str "INC") JSValue.undef JSValue.undef JSValue.undef
            JSValue.undef)) :=
  c5_bound_creator_dispatches_once.1 _ [] _ rfl

/-- C7: `waitForEmpty` resolves only with the empty snapshot and only
when the observed trace reaches length zero; it does resolve (with `[]`)
whenever the trace contains an empty value — immediately when the stack
is already empty at the call, the current value being the first observed;
and any two waiters observing the same trace resolve with the same
snapshot. -/
theorem c7_waitForEmpty_spec :
    (∀ (trace : List (List Nat)) (v : List Nat),
      ExecutionStack.waitForEmpty trace = some v → v = [] ∧ v ∈ trace) ∧
    (∀ (trace : List (List Nat)),
      ([] : List Nat) ∈ trace → ExecutionStack.waitForEmpty trace = some []) ∧
    (∀ (rest : List (List Nat)), ExecutionStack.waitForEmpty ([] :: rest) = some []) ∧
    (∀ (trace : List (List Nat)) (v w : List Nat),
      ExecutionStack.waitForEmpty trace = some v →
        ExecutionStack.waitForEmpty trace = some w → v = w) := by
  refine ⟨?_, ?_, fun rest => rfl, ?_⟩
  · intro trace v h
    have hp := List.find?_some h
    have hv : v = [] := by simpa [List.length_eq_zero] using hp
    exact ⟨hv, List.mem_of_find?_eq_some h⟩
  · intro trace hmem
    induction trace with
    | nil => cases hmem
    | cons hd tl ih =>
        by_cases hhd : hd = []
        · subst hhd; rfl
        · have hpa : ¬((hd.length == 0) = true) := by
            simpa [List.length_eq_zero] using hhd
          have hstep : ExecutionStack.waitForEmpty (hd :: tl) = ExecutionStack.waitForEmpty tl := by
            simp only [ExecutionStack.waitForEmpty, ExecutionStack.waitFor]
            exact List.find?_cons_of_neg tl hpa
          rw [hstep]
          rcases List.mem_cons.mp hmem with h | h
          · exact absurd h.symm hhd
          · exact ih h
  · intro trace v w hv hw
    rw [hv] at hw
    exact Option.some.inj hw

/-- C7 witness: a trace that becomes empty at its second observed value
resolves with the empty snapshot. -/
theorem c7_witness :
    ExecutionStack.waitForEmpty [[1], ([] : List Nat)] = some [] :=
  c7_waitForEmpty_spec.2.1 [[1], []] (by simp)

end Actionstack
